import Mathlib

/-!
# Verification of the go-autobuilder decision and relocation engine

Shallow embedding of `go/extractor/cli/go-autobuilder/go-autobuilder.go`:
the version resolver, the version-banner parser, the dependency-strategy
selector, the workspace relocation protocol and the build/extract pipeline
(`installDependenciesAndBuild`), together with theorems settling the
specification's claims about them.

External collaborators (the `go` toolchain, installers, the extractor
binary, the filesystem and the process environment) are modelled as inputs:
their observable outcomes are fields of an environment record, and the
side effects the engine performs are recorded as an action trace.
-/

/-! ## Versions

The program handles version strings of the shapes it itself produces:
`major.minor` (from the `go.mod` directive regex `^go[ \t\r]+([0-9]+\.[0-9]+)$`)
and `major.minor[.patch]` (from `go version` output).  `GoVer` is the parsed
form of such a string; comparison and truncation implement the semantics of
`golang.org/x/mod/semver` (`Compare`, `MajorMinor`) on these valid inputs:
a missing patch component compares as `0`.
-/

/-- A parsed Go version string `major.minor[.patch]`.  `patch = none`
models a two-component string such as `"1.20"`. -/
structure GoVer where
  major : Nat
  minor : Nat
  patch : Option Nat
  deriving DecidableEq, Repr

/-- `semver.Compare ("v" ++ a) ("v" ++ b)` for valid numeric versions:
lexicographic on (major, minor, patch), a missing patch counting as `0`. -/
def GoVer.cmp (a b : GoVer) : Ordering :=
  match compare a.major b.major with
  | Ordering.eq =>
    match compare a.minor b.minor with
    | Ordering.eq => compare (a.patch.getD 0) (b.patch.getD 0)
    | o => o
  | o => o

/-- `semver.MajorMinor`: truncate a version to its `major.minor` prefix. -/
def GoVer.majorMinor (v : GoVer) : GoVer :=
  { major := v.major, minor := v.minor, patch := none }

/-- `semver.Compare` where either side may be an invalid version string
(in the program: `"v" ++ ""` when no `go.mod` directive was found).
Per `x/mod/semver`, an invalid version compares less than any valid one
and equal to any other invalid one. -/
def semverCompareOpt : Option GoVer → Option GoVer → Ordering
  | none, none => Ordering.eq
  | none, some _ => Ordering.lt
  | some _, none => Ordering.gt
  | some a, some b => GoVer.cmp a b

/-- `const minGoVersion = "1.11"` -/
def minGoVersion : GoVer := { major := 1, minor := 11, patch := none }

/-- `const maxGoVersion = "1.20"` -/
def maxGoVersion : GoVer := { major := 1, minor := 20, patch := none }

/-- `outsideSupportedRange`: compare the `MajorMinor` truncation of the
version against the supported range `[minGoVersion, maxGoVersion]`. -/
def outsideSupportedRange (version : GoVer) : Bool :=
  GoVer.cmp version.majorMinor minGoVersion = Ordering.lt ||
    GoVer.cmp version.majorMinor maxGoVersion = Ordering.gt

/-! ## The requirement-mode version resolver (`--identify-environment`) -/

/-- The diagnostic kinds emitted by the resolver; `msg` strings in the Go
code carry one of these rationales (`""` is modelled as `none`). -/
inductive DiagMsg where
  | unsupportedGoMod
  | unsupportedEnvironment
  | noGoModAndNoGoEnv
  | noGoEnv
  | noGoMod
  | goModHigherVersionEnvironment
  | goModNotHigherVersionEnvironment
  deriving DecidableEq, Repr

/-- `type versionInfo struct`.  As in the Go code, the version fields are
meaningful only when the corresponding `Found` flag is set (the Go code
stores `""` there otherwise and never consults it). -/
structure versionInfo where
  goModVersion : GoVer
  goModVersionFound : Bool
  goEnvVersion : GoVer
  goEnvVersionFound : Bool
  deriving DecidableEq, Repr

/-- `checkForUnsupportedVersions`: if the `go.mod` version, or else the
environment version, is found but outside the supported range, return a
message and no version to install; otherwise return neither. -/
def checkForUnsupportedVersions (v : versionInfo) : Option DiagMsg × Option GoVer :=
  if v.goModVersionFound && outsideSupportedRange v.goModVersion then
    (some DiagMsg.unsupportedGoMod, none)
  else if v.goEnvVersionFound && outsideSupportedRange v.goEnvVersion then
    (some DiagMsg.unsupportedEnvironment, none)
  else
    (none, none)

/-- `checkForVersionsNotFound`: handle the three cases where at least one
of the two versions is missing (the three `if` blocks in the source have
mutually exclusive conditions). -/
def checkForVersionsNotFound (v : versionInfo) : Option DiagMsg × Option GoVer :=
  if !v.goEnvVersionFound && !v.goModVersionFound then
    (some DiagMsg.noGoModAndNoGoEnv, some maxGoVersion)
  else if !v.goEnvVersionFound && v.goModVersionFound then
    (some DiagMsg.noGoEnv, some v.goModVersion)
  else if v.goEnvVersionFound && !v.goModVersionFound then
    (some DiagMsg.noGoMod, none)
  else
    (none, none)

/-- `compareVersions`: both versions found and in range; request the
`go.mod` version exactly when it strictly exceeds the environment one. -/
def compareVersions (v : versionInfo) : Option DiagMsg × Option GoVer :=
  if GoVer.cmp v.goModVersion v.goEnvVersion = Ordering.gt then
    (some DiagMsg.goModHigherVersionEnvironment, some v.goModVersion)
  else
    (some DiagMsg.goModNotHigherVersionEnvironment, none)

/-- `getVersionToInstall`: run the three checks in order, stopping at the
first that produces a message (`msg != ""` in the source). -/
def getVersionToInstall (v : versionInfo) : Option DiagMsg × Option GoVer :=
  let r1 := checkForUnsupportedVersions v
  if r1.1.isSome then r1
  else
    let r2 := checkForVersionsNotFound v
    if r2.1.isSome then r2
    else compareVersions v

/-! ## The version-banner parser (`parseGoVersion`)

`parseGoVersion` scans its input with `bufio.Scanner` using the default
`ScanLines` split function, keeps the last token in `lastLine`, and returns
`strings.Fields(lastLine)[2]`.  Text is modelled as `List Char`; the panic
on a missing index is modelled as `none`. -/

/-- `unicode.IsSpace` on the ASCII space characters recognised by
`strings.Fields` (the only ones arising in `go version` output). -/
def isGoSpace (c : Char) : Bool :=
  c = ' ' || c = '\t' || c = '\n' || c = '\x0b' || c = '\x0c' || c = '\r'

/-- `dropCR` (from `bufio.ScanLines`): drop a single trailing `'\r'`. -/
def dropCR (l : List Char) : List Char :=
  if l.getLast? = some '\r' then l.dropLast else l

/-- Token stream of `bufio.Scanner` with `ScanLines`: a token per line,
terminated by `'\n'` or by the end of input; empty input yields no token;
each token has a trailing `'\r'` stripped.  `acc` holds the reversed
current line. -/
def scanLinesAux : List Char → List Char → List (List Char)
  | [], acc => if acc = [] then [] else [dropCR acc.reverse]
  | c :: cs, acc =>
    if c = '\n' then dropCR acc.reverse :: scanLinesAux cs []
    else scanLinesAux cs (c :: acc)

/-- The lines scanned from `data` (the tokens produced by the `sc.Scan()`
loop in `parseGoVersion`). -/
def scanLines (data : List Char) : List (List Char) :=
  scanLinesAux data []

/-- `strings.Fields`: maximal runs of non-space characters.  `acc` holds
the reversed current field. -/
def fieldsAux : List Char → List Char → List (List Char)
  | [], acc => if acc = [] then [] else [acc.reverse]
  | c :: cs, acc =>
    if isGoSpace c then
      if acc = [] then fieldsAux cs [] else acc.reverse :: fieldsAux cs []
    else fieldsAux cs (c :: acc)

/-- `strings.Fields`. -/
def fields (s : List Char) : List (List Char) :=
  fieldsAux s []

/-- `parseGoVersion`: the third whitespace-separated field of the last
scanned line (`""` if no line was scanned, matching the zero value of
`lastLine`); `none` models the index-out-of-range panic. -/
def parseGoVersion (data : List Char) : Option (List Char) :=
  (fields ((scanLines data).getLastD [])).get? 2

/-- A text made of the given lines, each terminated by `'\n'` — the shape
of `go version` output: zero or more warning lines followed by the
version banner. -/
def joinLines : List (List Char) → List Char
  | [] => []
  | l :: ls => l ++ '\n' :: joinLines ls

/-! ## Dependency-installation strategy and module mode -/

/-- `type DependencyInstallerMode int`. -/
inductive DependencyInstallerMode where
  | GoGetNoModules
  | GoGetWithModules
  | Dep
  | Glide
  deriving DecidableEq, Repr

/-- `type ModMode int`. -/
inductive ModMode where
  | ModUnset
  | ModReadonly
  | ModMod
  | ModVendor
  deriving DecidableEq, Repr

/-- `getDepMode`, over the file-existence observations of the project
root (`util.FileExists`): `go.mod`, then `Gopkg.toml`, then `glide.yaml`,
else plain `go get`. -/
def getDepMode (fileExists : String → Bool) : DependencyInstallerMode :=
  if fileExists "go.mod" then DependencyInstallerMode.GoGetWithModules
  else if fileExists "Gopkg.toml" then DependencyInstallerMode.Dep
  else if fileExists "glide.yaml" then DependencyInstallerMode.Glide
  else DependencyInstallerMode.GoGetNoModules

/-- `getModMode`: `-mod=vendor` if `vendor/modules.txt` exists, `-mod=mod`
if a `vendor` directory exists without it — both only for module builds. -/
def getModMode (depMode : DependencyInstallerMode) (fileExists : String → Bool)
    (dirExists : String → Bool) : ModMode :=
  if depMode = DependencyInstallerMode.GoGetWithModules then
    if fileExists "vendor/modules.txt" then ModMode.ModVendor
    else if dirExists "vendor" then ModMode.ModMod
    else ModMode.ModUnset
  else ModMode.ModUnset

/-- `getNeedGopath`: the profile-derived default (`true` unless module
mode), overridden by `LGTM_INDEX_NEED_GOPATH` (`"true"`/`"false"`; any
other non-empty value is `log.Fatalf`, modelled as `none`), then forced
to `false` when no import path could be determined (`importpath = ""`). -/
def getNeedGopath (depMode : DependencyInstallerMode) (importpath : String)
    (needGopathOverride : String) : Option Bool :=
  let needGopath := if depMode = DependencyInstallerMode.GoGetWithModules then false else true
  match (if needGopathOverride ≠ "" then
          if needGopathOverride = "true" then some true
          else if needGopathOverride = "false" then some false
          else none
         else some needGopath) with
  | none => none
  | some needGopath =>
    if needGopath && importpath = "" then some false else some needGopath

/-! ## The build pipeline (`installDependenciesAndBuild`)

The pipeline's interactions with the outside world are collected in
`BuildEnv`; the side-effecting steps it takes are recorded, in program
order, as a list of `Action`s.  `log.Fatalf` is `os.Exit`: it ends the
run immediately and — crucially — deferred functions do *not* run. -/

/-- Outcomes of the external world consumed by one run of
`installDependenciesAndBuild`. -/
structure BuildEnv where
  /-- `LGTM_SRC`. -/
  lgtmSrc : String
  /-- `LGTM_INDEX_NEED_GOPATH`. -/
  needGopathOverride : String
  /-- `CODEQL_EXTRACTOR_GO_BUILD_COMMAND` / `LGTM_INDEX_BUILD_COMMAND`
  (first non-empty of the two, as returned by `util.Getenv`). -/
  buildCommand : String
  /-- Result of `getImportPath()`: the import path derived from
  `LGTM_INDEX_IMPORT_PATH`, `SEMMLE_REPO_URL` or `GITHUB_REPOSITORY`;
  `""` means it could not be determined. -/
  importpath : String
  /-- `util.FileExists` on the project root. -/
  fileExists : String → Bool
  /-- `util.DirExists` on the project root. -/
  dirExists : String → Bool
  /-- Result of the `go` directive regex applied to `go.mod`
  (`tryReadGoDirective`'s read): `none` when the file is unreadable or
  has no directive. -/
  goDirective : Option GoVer
  /-- The environment's Go version from `go version` (`getEnvGoSemVer`). -/
  goEnvVer : GoVer
  /-- Whether reading `vendor/modules.txt` in `fixGoVendorIssues`
  succeeds. -/
  modulesTxtReadOk : Bool
  /-- Whether `vendor/modules.txt` matches `(?m)^## explicit$`. -/
  modulesTxtExplicit : Bool
  /-- Whether `go mod edit -go=1.13` (`addVersionToMod`) succeeds. -/
  addVersionOk : Bool
  /-- Whether `autobuilder.Autobuild()` succeeds. -/
  buildSucceeded : Bool
  /-- Whether `util.DepErrors` still reports dependency errors after a
  successful build. -/
  depErrors : Bool
  /-- Result of `checkVendor()` (`true` = vendoring is consistent). -/
  checkVendorOk : Bool
  /-- Whether the final extractor invocation succeeds (resolving the
  extractor path and running it); `false` ends the run with
  `log.Fatalf`. -/
  extractionOk : Bool

/-- The side-effecting steps of one run, in program order. -/
inductive BuildAction where
  /-- `diagnostics.EmitNewerGoVersionNeeded()`. -/
  | emitNewerGoVersionNeeded
  /-- `go mod tidy -e` from `tryUpdateGoModAndGoSum`. -/
  | goModTidy
  /-- `moveToTemporaryGopath` returned: the relocation plan exists. -/
  | moveToGopath
  /-- The path-transformer file was created and written. -/
  | writePathTransformer
  /-- `setGopath`: GOPATH was extended with the synthetic workspace. -/
  | setGopathAction
  /-- The default build attempt (`autobuilder.Autobuild()`). -/
  | autobuild
  /-- The custom build script was written and executed. -/
  | runCustomBuildScript
  /-- The vendor-recheck downgraded `ModVendor` to `ModMod` (logged). -/
  | downgradeVendorNotice
  /-- `installDependencies` ran with the given installer mode. -/
  | installDeps (m : DependencyInstallerMode)
  /-- The "skipping dependency installation" notice for vendored mode. -/
  | skipInstallNotice
  /-- The extractor process ran with the given module mode's flags. -/
  | extractRun (m : ModMode)
  /-- Deferred `os.Remove` of the path-transformer file ran. -/
  | removePathTransformer
  /-- Deferred `restoreRepoLayout` ran. -/
  | restoreLayout
  deriving DecidableEq, Repr

/-- The trace of one run together with whether it ended in `log.Fatalf`
(`os.Exit`, skipping all deferred functions). -/
structure RunResult where
  trace : List BuildAction
  fatal : Bool
  deriving DecidableEq, Repr

/-- `tryReadGoDirective`: only module builds read the directive. -/
def tryReadGoDirective (depMode : DependencyInstallerMode) (goDirective : Option GoVer) :
    Option GoVer :=
  if depMode = DependencyInstallerMode.GoGetWithModules then goDirective else none

/-- The condition at the top of `installDependenciesAndBuild`:
`semver.Compare("v"+goModVersion, getEnvGoSemVer()) >= 0` (note: not
strict; `"v"+""` is an invalid version when no directive was found). -/
def newerGoVersionNeededCheck (goModVersion : Option GoVer) (envVer : GoVer) : Bool :=
  semverCompareOpt goModVersion (some envVer) ≠ Ordering.lt

/-- `fixGoVendorIssues`: for a vendored module build whose `go.mod` lacks
a version directive and whose `modules.txt` lacks `## explicit`
annotations, try `go mod edit -go=1.13`; on failure fall back to
`-mod=mod`. -/
def fixGoVendorIssues (modMode : ModMode) (depMode : DependencyInstallerMode)
    (goModVersionFound : Bool) (env : BuildEnv) : ModMode :=
  if modMode = ModMode.ModVendor then
    if depMode = DependencyInstallerMode.GoGetWithModules then
      if !goModVersionFound then
        if !env.modulesTxtReadOk then modMode
        else if !env.modulesTxtExplicit then
          if env.addVersionOk then modMode else ModMode.ModMod
        else modMode
      else modMode
    else modMode
  else modMode

/-- `buildWithoutCustomCommands`: install dependencies if the default
build failed, or it succeeded but `util.DepErrors` still reports
unresolved dependencies. -/
def buildWithoutCustomCommands (env : BuildEnv) : Bool :=
  if !env.buildSucceeded then true else env.depErrors

/-- The dependency-installer mode of the run. -/
def depModeOf (env : BuildEnv) : DependencyInstallerMode :=
  getDepMode env.fileExists

/-- The `go.mod` directive as read by the run. -/
def goDirectiveOf (env : BuildEnv) : Option GoVer :=
  tryReadGoDirective (depModeOf env) env.goDirective

/-- The module mode in effect before the build: `getModMode` corrected by
`fixGoVendorIssues`. -/
def preBuildModMode (env : BuildEnv) : ModMode :=
  fixGoVendorIssues (getModMode (depModeOf env) env.fileExists env.dirExists)
    (depModeOf env) (goDirectiveOf env).isSome env

/-- `tryUpdateGoModAndGoSum` runs `go mod tidy -e` exactly when the mode
is not vendored, the build is module-based and the environment Go version
is at least 1.16. -/
def goModTidyRuns (env : BuildEnv) : Bool :=
  preBuildModMode env ≠ ModMode.ModVendor &&
    depModeOf env = DependencyInstallerMode.GoGetWithModules &&
    GoVer.cmp env.goEnvVer { major := 1, minor := 16, patch := none } ≠ Ordering.lt

/-- The module mode after the post-build vendor recheck: `ModVendor` is
downgraded to `ModMod` when `checkVendor()` reports inconsistency. -/
def finalModMode (env : BuildEnv) : ModMode :=
  if preBuildModMode env = ModMode.ModVendor && !env.checkVendorOk then ModMode.ModMod
  else preBuildModMode env

/-- Whether the run decides to install dependencies itself: `false` when a
custom build command is provided, else `buildWithoutCustomCommands`. -/
def shouldInstallDepsOf (env : BuildEnv) : Bool :=
  if env.buildCommand = "" then buildWithoutCustomCommands env else false

/-- Steps of `installDependenciesAndBuild` up to the `getNeedGopath`
call: the (buggy, non-strict) newer-version diagnostic and
`tryUpdateGoModAndGoSum`. -/
def preTrace (env : BuildEnv) : List BuildAction :=
  (if newerGoVersionNeededCheck (goDirectiveOf env) env.goEnvVer then
    [BuildAction.emitNewerGoVersionNeeded] else []) ++
  (if goModTidyRuns env then [BuildAction.goModTidy] else [])

/-- The relocation block guarded by `inLGTM && needGopath`:
`moveToTemporaryGopath`, the path-transformer file, `setGopath`. -/
def relocTrace (relocate : Bool) : List BuildAction :=
  if relocate then
    [BuildAction.moveToGopath, BuildAction.writePathTransformer, BuildAction.setGopathAction]
  else []

/-- The build step: the default build, or the custom build script when
`CODEQL_EXTRACTOR_GO_BUILD_COMMAND` / `LGTM_INDEX_BUILD_COMMAND` is set. -/
def buildStepTrace (env : BuildEnv) : List BuildAction :=
  if env.buildCommand = "" then [BuildAction.autobuild] else [BuildAction.runCustomBuildScript]

/-- The post-build vendor recheck: the downgrade notice when `checkVendor`
reports inconsistency on a vendored build. -/
def vendorRecheckTrace (env : BuildEnv) : List BuildAction :=
  if preBuildModMode env = ModMode.ModVendor && !env.checkVendorOk then
    [BuildAction.downgradeVendorNotice]
  else []

/-- The dependency-installation step: skipped with a notice when the mode
still in effect is `ModVendor`, otherwise `installDependencies`. -/
def installStepTrace (env : BuildEnv) : List BuildAction :=
  if shouldInstallDepsOf env then
    if finalModMode env = ModMode.ModVendor then [BuildAction.skipInstallNotice]
    else [BuildAction.installDeps (depModeOf env)]
  else []

/-- All steps from the relocation decision up to (not including) the
extractor invocation, in program order. -/
def bodyTrace (env : BuildEnv) (relocate : Bool) : List BuildAction :=
  preTrace env ++ relocTrace relocate ++ buildStepTrace env ++
    vendorRecheckTrace env ++ installStepTrace env

/-- `installDependenciesAndBuild` as a trace: every side-effecting step in
program order.  Deferred functions (`restoreRepoLayout`, removing the
path-transformer file) run only when the function returns normally; a
`log.Fatalf` (modelled for the invalid `LGTM_INDEX_NEED_GOPATH` value and
for extraction failure) is `os.Exit` and skips them.  Filesystem
operations whose failures would merely add further fatal exits of the
same shape (creating the scratch directory, writing the path-transformer
file, setting GOPATH) are modelled as succeeding. -/
def installDependenciesAndBuild (env : BuildEnv) : RunResult :=
  match getNeedGopath (depModeOf env) env.importpath env.needGopathOverride with
  | none => { trace := preTrace env, fatal := true }
  | some needGopath =>
    let inLGTM := env.lgtmSrc ≠ "" || env.needGopathOverride ≠ ""
    let relocate := inLGTM && needGopath
    if env.extractionOk then
      { trace := bodyTrace env relocate ++ [BuildAction.extractRun (finalModMode env)] ++
          (if relocate then [BuildAction.removePathTransformer, BuildAction.restoreLayout] else []),
        fatal := false }
    else
      { trace := bodyTrace env relocate ++ [BuildAction.extractRun (finalModMode env)],
        fatal := true }

/-! ## The workspace relocation protocol, at the level of names

`moveToTemporaryGopath` and `restoreRepoLayout` move directory entries
between the source root, the scratch directory and the synthetic
workspace `<realSrc>/root/src/<importpath>`.  The claims about them
concern the *set of top-level entry names* of the source directory, so
the model tracks exactly that.  A per-entry `os.Rename` during restore is
logged-but-not-fatal on failure; at the level of destination names a
rename can only fail here when the name is already present at the
destination, so the destination name set is the union in either case. -/

/-- `type moveGopathInfo struct`, restricted to the name-level facts. -/
structure moveGopathInfo where
  /-- `filepath.Base(scratch)`: the scratch directory's name. -/
  scratch : String
  /-- `files`: the entry list returned by `Readdirnames` — read *after*
  the scratch directory was created, so it includes the scratch name. -/
  files : Finset String
  /-- Top-level entry names of `srcdir` after the move: everything was
  moved into the scratch directory, which was renamed to
  `root/src/<importpath>` inside the newly created `root`. -/
  srcTopLevel : Finset String
  /-- Entry names of the relocated directory `newdir`. -/
  newdirContents : Finset String
  deriving DecidableEq

/-- `moveToTemporaryGopath`, at the level of top-level names.  `entries`
are the top-level names of `srcdir` before the call; `scratchBase` is the
fresh name `os.MkdirTemp` picks (fresh: not in `entries`). -/
def moveToTemporaryGopath (entries : Finset String) (scratchBase : String) : moveGopathInfo :=
  { scratch := scratchBase,
    files := insert scratchBase entries,
    srcTopLevel := {"root"},
    newdirContents := (insert scratchBase entries).erase scratchBase }

/-- `restoreRepoLayout fromDir dirEntries scratchDirName toDir`, at the
level of the destination's top-level names: every recorded entry except
the scratch name is moved back to `toDir`. -/
def restoreRepoLayout (dirEntries : Finset String) (scratchDirName : String)
    (toDirNames : Finset String) : Finset String :=
  toDirNames ∪ dirEntries.erase scratchDirName

/-- The relocation round trip: relocate, then run the scheduled undo, and
observe the top-level names of the original source directory. -/
def relocateAndRestore (entries : Finset String) (scratchBase : String) : Finset String :=
  let info := moveToTemporaryGopath entries scratchBase
  restoreRepoLayout info.files info.scratch info.srcTopLevel

/-! ## Concrete runs used as counterexamples and witnesses -/

/-- A legacy (no-manifest) project in an LGTM-style environment whose
extraction step fails: relocation happens, then the run ends with
`log.Fatalf` inside `extract`. -/
def envExtractionFails : BuildEnv :=
  { lgtmSrc := "/src", needGopathOverride := "", buildCommand := "",
    importpath := "example.com/pkg", fileExists := fun _ => false,
    dirExists := fun _ => false, goDirective := none,
    goEnvVer := { major := 1, minor := 18, patch := some 3 },
    modulesTxtReadOk := true, modulesTxtExplicit := true, addVersionOk := true,
    buildSucceeded := true, depErrors := false, checkVendorOk := true,
    extractionOk := false }

/-- A module project whose `go.mod` declares exactly the installed Go
version (`go 1.20` against environment Go 1.20). -/
def envEqualVersions : BuildEnv :=
  { lgtmSrc := "", needGopathOverride := "", buildCommand := "",
    importpath := "", fileExists := fun s => s == "go.mod",
    dirExists := fun _ => false,
    goDirective := some { major := 1, minor := 20, patch := none },
    goEnvVer := { major := 1, minor := 20, patch := none },
    modulesTxtReadOk := true, modulesTxtExplicit := true, addVersionOk := true,
    buildSucceeded := true, depErrors := false, checkVendorOk := true,
    extractionOk := true }

/-- A vendored module project whose default build fails, so dependency
installation is triggered while the mode is `ModVendor`. -/
def envVendoredInstall : BuildEnv :=
  { lgtmSrc := "", needGopathOverride := "", buildCommand := "",
    importpath := "", fileExists := fun s => s == "go.mod" || s == "vendor/modules.txt",
    dirExists := fun s => s == "vendor",
    goDirective := some { major := 1, minor := 16, patch := none },
    goEnvVer := { major := 1, minor := 18, patch := some 3 },
    modulesTxtReadOk := true, modulesTxtExplicit := true, addVersionOk := true,
    buildSucceeded := false, depErrors := false, checkVendorOk := true,
    extractionOk := true }

/-- A legacy (no-manifest) project in an LGTM-style environment whose
whole run succeeds: relocation happens and the deferred undo runs. -/
def envRelocateOk : BuildEnv :=
  { lgtmSrc := "/src", needGopathOverride := "", buildCommand := "",
    importpath := "example.com/pkg", fileExists := fun _ => false,
    dirExists := fun _ => false, goDirective := none,
    goEnvVer := { major := 1, minor := 18, patch := some 3 },
    modulesTxtReadOk := true, modulesTxtExplicit := true, addVersionOk := true,
    buildSucceeded := true, depErrors := false, checkVendorOk := true,
    extractionOk := true }

/-- The value the claim about `getNeedGopath` predicts, following the
spec's words: true iff the profile is not module-based AND an import path
can be determined AND no environment override disables it.  Compared
against the code's `getNeedGopath`. -/
def needGopathClaimedValue (depMode : DependencyInstallerMode) (importpath : String)
    (needGopathOverride : String) : Bool :=
  (depMode ≠ DependencyInstallerMode.GoGetWithModules) && (importpath ≠ "") &&
    (needGopathOverride ≠ "false")

/-! ## Claims about the version resolver and the supported range -/

/-- C1: In requirement mode, for every pair of a declared (`go.mod`) and an
installed (environment) version that are both found and both within the
supported range, `getVersionToInstall` requests installation of a version
iff the declared version strictly exceeds the installed one under semver
ordering, and then the requested version is exactly the declared one. -/
theorem getVersionToInstall_requests_iff_declared_newer (v : versionInfo)
    (hmf : v.goModVersionFound = true) (hef : v.goEnvVersionFound = true)
    (hmr : outsideSupportedRange v.goModVersion = false)
    (her : outsideSupportedRange v.goEnvVersion = false) :
    ((getVersionToInstall v).2.isSome ↔
      GoVer.cmp v.goModVersion v.goEnvVersion = Ordering.gt) ∧
    (getVersionToInstall v).2 =
      (if GoVer.cmp v.goModVersion v.goEnvVersion = Ordering.gt
       then some v.goModVersion else none) := by
  have h1 : checkForUnsupportedVersions v = (none, none) := by
    simp [checkForUnsupportedVersions, hmf, hef, hmr, her]
  have h2 : checkForVersionsNotFound v = (none, none) := by
    simp [checkForVersionsNotFound, hmf, hef]
  by_cases hc : GoVer.cmp v.goModVersion v.goEnvVersion = Ordering.gt <;>
    simp [getVersionToInstall, h1, h2, compareVersions, hc]

/-- Witness for C1: `go.mod` declares 1.15, environment has 1.14.2; the
resolver requests exactly 1.15. -/
theorem getVersionToInstall_requests_iff_declared_newer_witness :
    (getVersionToInstall ⟨⟨1, 15, none⟩, true, ⟨1, 14, some 2⟩, true⟩).2 =
      some ⟨1, 15, none⟩ := by
  have h := getVersionToInstall_requests_iff_declared_newer
    ⟨⟨1, 15, none⟩, true, ⟨1, 14, some 2⟩, true⟩ rfl rfl (by decide) (by decide)
  exact h.2.trans (by decide)

/-- C4: `outsideSupportedRange` works at major.minor granularity only: any
two versions with the same major.minor prefix get the same answer; in
particular 1.20.1 and 1.20.0 truncate to the same major.minor as 1.20 and
are in range (max is 1.20), while 1.21.0 is out of range. -/
theorem outsideSupportedRange_ignores_patch :
    (∀ v₁ v₂ : GoVer, v₁.major = v₂.major → v₁.minor = v₂.minor →
      outsideSupportedRange v₁ = outsideSupportedRange v₂) ∧
    outsideSupportedRange ⟨1, 20, some 1⟩ = false ∧
    outsideSupportedRange ⟨1, 20, some 0⟩ = false ∧
    outsideSupportedRange ⟨1, 20, none⟩ = false ∧
    GoVer.majorMinor ⟨1, 20, some 1⟩ = GoVer.majorMinor ⟨1, 20, some 0⟩ ∧
    outsideSupportedRange ⟨1, 21, some 0⟩ = true := by
  refine ⟨?_, by decide, by decide, by decide, by decide, by decide⟩
  intro v₁ v₂ h1 h2
  simp [outsideSupportedRange, GoVer.majorMinor, h1, h2]

/-- Witness for C4 at two concrete versions sharing major.minor 1.20. -/
theorem outsideSupportedRange_ignores_patch_witness :
    outsideSupportedRange ⟨1, 20, some 5⟩ = outsideSupportedRange ⟨1, 20, some 7⟩ :=
  outsideSupportedRange_ignores_patch.1 ⟨1, 20, some 5⟩ ⟨1, 20, some 7⟩ rfl rfl

/-! ## Claims about the strategy selector -/

/-- C8: `getDepMode` detection is short-circuiting in a fixed priority
order: `go.mod` wins over everything, then `Gopkg.toml`, then
`glide.yaml`, and the absence of all three yields the legacy profile; in
particular `go.mod` together with `Gopkg.toml` yields the module-based
profile. -/
theorem getDepMode_fixed_priority (f : String → Bool) :
    (f "go.mod" = true → getDepMode f = DependencyInstallerMode.GoGetWithModules) ∧
    (f "go.mod" = false → f "Gopkg.toml" = true →
      getDepMode f = DependencyInstallerMode.Dep) ∧
    (f "go.mod" = false → f "Gopkg.toml" = false → f "glide.yaml" = true →
      getDepMode f = DependencyInstallerMode.Glide) ∧
    (f "go.mod" = false → f "Gopkg.toml" = false → f "glide.yaml" = false →
      getDepMode f = DependencyInstallerMode.GoGetNoModules) ∧
    (f "go.mod" = true → f "Gopkg.toml" = true →
      getDepMode f = DependencyInstallerMode.GoGetWithModules) := by
  refine ⟨?_, ?_, ?_, ?_, ?_⟩ <;> intros <;> simp_all [getDepMode]

/-- Witness for C8: a root with both `go.mod` and `Gopkg.toml` yields the
module-based profile. -/
theorem getDepMode_fixed_priority_witness :
    getDepMode (fun s => s == "go.mod" || s == "Gopkg.toml") =
      DependencyInstallerMode.GoGetWithModules :=
  (getDepMode_fixed_priority (fun s => s == "go.mod" || s == "Gopkg.toml")).2.2.2.2
    (by decide) (by decide)

/-- C6, counterexample: with override `LGTM_INDEX_NEED_GOPATH="true"`, a
module-based profile and a determinable import path, the code computes
`true`, but the claim's characterization (true iff the profile is not
module-based AND an import path is available AND the override does not
disable) predicts `false`: the force-on override wins over the profile. -/
theorem getNeedGopath_override_beats_profile :
    getNeedGopath DependencyInstallerMode.GoGetWithModules "github.com/a/b" "true" =
      some true ∧
    needGopathClaimedValue DependencyInstallerMode.GoGetWithModules "github.com/a/b" "true" =
      false := by
  decide

/-- C6, amended: `getNeedGopath` is `true` iff the override-resolved
default is true and an import path is available — with no override the
default is "profile is not module-based"; an explicit `"true"`/`"false"`
override replaces the default in both directions (force-on applies even
to module-based profiles, but is still cancelled by a missing import
path); any other non-empty override value is fatal. -/
theorem getNeedGopath_characterization (depMode : DependencyInstallerMode)
    (importpath : String) (ov : String) :
    (ov = "true" → getNeedGopath depMode importpath ov = some (importpath != "")) ∧
    (ov = "false" → getNeedGopath depMode importpath ov = some false) ∧
    (ov = "" → getNeedGopath depMode importpath ov =
      some ((depMode != DependencyInstallerMode.GoGetWithModules) && (importpath != ""))) ∧
    (ov ≠ "" → ov ≠ "true" → ov ≠ "false" → getNeedGopath depMode importpath ov = none) := by
  refine ⟨?_, ?_, ?_, ?_⟩
  · intro h
    subst h
    by_cases hip : importpath = "" <;> simp [getNeedGopath, hip]
  · intro h
    subst h
    simp [getNeedGopath]
  · intro h
    subst h
    by_cases hdm : depMode = DependencyInstallerMode.GoGetWithModules <;>
      by_cases hip : importpath = "" <;>
        simp [getNeedGopath, hdm, hip]
  · intro h1 h2 h3
    simp [getNeedGopath, h1, h2, h3]

/-- Witness for amended C6: no override, legacy profile, import path
available — GOPATH setup is needed. -/
theorem getNeedGopath_characterization_witness :
    getNeedGopath DependencyInstallerMode.GoGetNoModules "github.com/a/b" "" = some true := by
  have h := (getNeedGopath_characterization DependencyInstallerMode.GoGetNoModules
    "github.com/a/b" "").2.2.1 rfl
  exact h.trans (by decide)

/-! ## Claims about the version-banner parser -/

/-- A trailing carriage return is whitespace to `strings.Fields`, so
appending one does not change the fields. -/
theorem fieldsAux_concat_cr (l : List Char) : ∀ acc,
    fieldsAux (l ++ ['\r']) acc = fieldsAux l acc := by
  induction l with
  | nil =>
    intro acc
    by_cases h : acc = [] <;> simp [fieldsAux, isGoSpace, h]
  | cons c cs ih =>
    intro acc
    simp only [List.cons_append, fieldsAux]
    by_cases h : isGoSpace c <;> simp [h, ih]

/-- `strings.Fields` is unaffected by `dropCR`. -/
theorem fields_dropCR (l : List Char) : fields (dropCR l) = fields l := by
  unfold dropCR
  split
  · next h =>
    have hne : l ≠ [] := by
      intro e
      subst e
      simp at h
    have hlast : l.getLast hne = '\r' := by
      have h2 := List.getLast?_eq_getLast l hne
      rw [h2] at h
      exact Option.some_inj.mp h
    have hdecomp : l.dropLast ++ ['\r'] = l := by
      rw [← hlast]
      exact List.dropLast_append_getLast hne
    conv_rhs => rw [← hdecomp]
    exact (fieldsAux_concat_cr l.dropLast []).symm
  · rfl

/-- Scanning a newline-terminated line yields that line (CR-stripped) as
one token and continues with the rest. -/
theorem scanLinesAux_line (l : List Char) (hl : '\n' ∉ l) : ∀ acc rest,
    scanLinesAux (l ++ '\n' :: rest) acc =
      dropCR (acc.reverse ++ l) :: scanLinesAux rest [] := by
  induction l with
  | nil =>
    intro acc rest
    simp [scanLinesAux]
  | cons c cs ih =>
    intro acc rest
    have hc : ¬(c = '\n') := fun e => hl (e ▸ List.mem_cons_self c cs)
    have hcs : '\n' ∉ cs := fun m => hl (List.mem_cons_of_mem c m)
    simp only [List.cons_append, scanLinesAux, if_neg hc]
    show scanLinesAux (cs ++ '\n' :: rest) (c :: acc) =
      dropCR (acc.reverse ++ c :: cs) :: scanLinesAux rest []
    rw [ih hcs]
    simp

/-- Scanning a text assembled from newline-free lines, each terminated by
`'\n'`, recovers exactly those lines (CR-stripped). -/
theorem scanLines_joinLines (ls : List (List Char)) (h : ∀ l ∈ ls, '\n' ∉ l) :
    scanLines (joinLines ls) = ls.map dropCR := by
  induction ls with
  | nil => rfl
  | cons l ls ih =>
    have hl : '\n' ∉ l := h l (List.mem_cons_self _ _)
    have hls : ∀ x ∈ ls, '\n' ∉ x := fun x m => h x (List.mem_cons_of_mem _ m)
    show scanLinesAux (l ++ '\n' :: joinLines ls) [] = dropCR l :: ls.map dropCR
    rw [scanLinesAux_line l hl [] (joinLines ls)]
    simp only [List.reverse_nil, List.nil_append]
    exact congrArg _ (ih hls)

/-- The parser applied to warning lines followed by a final banner line
reads its result off the banner line alone. -/
theorem parseGoVersion_joinLines_concat (ws : List (List Char)) (b : List Char)
    (hw : ∀ w ∈ ws, '\n' ∉ w) (hb : '\n' ∉ b) :
    parseGoVersion (joinLines (ws ++ [b])) = (fields b).get? 2 := by
  have hall : ∀ l ∈ ws ++ [b], '\n' ∉ l := by
    intro l hm
    rcases List.mem_append.mp hm with h | h
    · exact hw l h
    · rw [List.mem_singleton.mp h]
      exact hb
  unfold parseGoVersion
  rw [scanLines_joinLines _ hall]
  have hmap : (ws ++ [b]).map dropCR = ws.map dropCR ++ [dropCR b] := by simp
  rw [hmap]
  have hlast : (ws.map dropCR ++ [dropCR b]).getLastD [] = dropCR b := by
    rw [List.getLastD_eq_getLast?, List.getLast?_concat]
    rfl
  rw [hlast, fields_dropCR]

/-- C9: For every banner text made of leading warning lines followed by a
version banner line with at least three fields, `parseGoVersion` returns
the version field (field index 2) of that last, non-empty line; the
result is defined, and the warning lines never affect it. -/
theorem parseGoVersion_last_line (ws : List (List Char)) (b : List Char)
    (hw : ∀ w ∈ ws, '\n' ∉ w) (hb : '\n' ∉ b)
    (h3 : 3 ≤ (fields b).length) :
    parseGoVersion (joinLines (ws ++ [b])) = (fields b).get? 2 ∧
    ((fields b).get? 2).isSome = true ∧
    parseGoVersion (joinLines (ws ++ [b])) = parseGoVersion (joinLines [b]) := by
  have h1 := parseGoVersion_joinLines_concat ws b hw hb
  have h1b := parseGoVersion_joinLines_concat [] b (by simp) hb
  refine ⟨h1, ?_, h1.trans h1b.symm⟩
  have hlt : 2 < (fields b).length := by omega
  rw [List.get?_eq_get hlt]
  rfl

/-- Witness for C9: one warning line before the actual banner. -/
theorem parseGoVersion_last_line_witness :
    3 ≤ (fields ("go version go1.14.4 linux/amd64".toList)).length ∧
    parseGoVersion (joinLines (["warning: something".toList] ++
        ["go version go1.14.4 linux/amd64".toList])) =
      some ("go1.14.4".toList) := by
  refine ⟨by decide, ?_⟩
  have h := parseGoVersion_last_line ["warning: something".toList]
    ("go version go1.14.4 linux/amd64".toList) (by decide) (by decide) (by decide)
  exact h.1.trans (by decide)

/-! ## Claims about the relocation round trip -/

/-- C2, counterexample: a source tree with the single top-level entry
`main.go`.  After relocation and the scheduled undo the top level is
`{main.go, root}`, not `{main.go}`: the synthetic workspace directory
`root` is left behind, so the round trip is not the identity on the set
of top-level names. -/
theorem relocateAndRestore_not_identity :
    relocateAndRestore {"main.go"} "scratch123" ≠ ({"main.go"} : Finset String) ∧
    relocateAndRestore {"main.go"} "scratch123" = ({"main.go", "root"} : Finset String) := by
  decide

/-- C2, amended: after the scheduled undo, every pre-relocation top-level
name is present again at the top level of the source directory, but the
resulting name set is the original set plus the workspace directory name
`root`; the round trip is the identity on the name set exactly when
`root` was already a top-level entry. -/
theorem relocateAndRestore_preserves_entries_adds_root (entries : Finset String)
    (scratchBase : String) (h : scratchBase ∉ entries) :
    relocateAndRestore entries scratchBase = insert "root" entries ∧
    entries ⊆ relocateAndRestore entries scratchBase ∧
    (relocateAndRestore entries scratchBase = entries ↔ "root" ∈ entries) := by
  have key : relocateAndRestore entries scratchBase = insert "root" entries := by
    show ({"root"} : Finset String) ∪ (insert scratchBase entries).erase scratchBase =
      insert "root" entries
    rw [Finset.erase_insert h, ← Finset.insert_eq]
  refine ⟨key, ?_, ?_⟩
  · rw [key]
    exact Finset.subset_insert _ _
  · rw [key]
    exact Finset.insert_eq_self

/-- Witness for amended C2 at a concrete one-entry tree. -/
theorem relocateAndRestore_preserves_entries_adds_root_witness :
    relocateAndRestore {"main.go"} "scratch456" = insert "root" {"main.go"} :=
  (relocateAndRestore_preserves_entries_adds_root {"main.go"} "scratch456" (by decide)).1

/-! ## Trace lemmas for the build pipeline -/

theorem mem_preTrace (env : BuildEnv) (a : BuildAction) (h : a ∈ preTrace env) :
    a = BuildAction.emitNewerGoVersionNeeded ∨ a = BuildAction.goModTidy := by
  unfold preTrace at h
  rw [List.mem_append] at h
  rcases h with h | h <;> split_ifs at h <;> simp_all

theorem mem_relocTrace (r : Bool) (a : BuildAction) :
    a ∈ relocTrace r ↔ r = true ∧ (a = BuildAction.moveToGopath ∨
      a = BuildAction.writePathTransformer ∨ a = BuildAction.setGopathAction) := by
  cases r <;> simp [relocTrace]

theorem mem_buildStepTrace (env : BuildEnv) (a : BuildAction) (h : a ∈ buildStepTrace env) :
    a = BuildAction.autobuild ∨ a = BuildAction.runCustomBuildScript := by
  unfold buildStepTrace at h
  split_ifs at h <;> simp_all

theorem mem_vendorRecheckTrace (env : BuildEnv) (a : BuildAction)
    (h : a ∈ vendorRecheckTrace env) : a = BuildAction.downgradeVendorNotice := by
  unfold vendorRecheckTrace at h
  split_ifs at h <;> simp_all

theorem mem_installStepTrace (env : BuildEnv) (a : BuildAction) :
    a ∈ installStepTrace env ↔ shouldInstallDepsOf env = true ∧
      ((finalModMode env = ModMode.ModVendor ∧ a = BuildAction.skipInstallNotice) ∨
       (finalModMode env ≠ ModMode.ModVendor ∧ a = BuildAction.installDeps (depModeOf env))) := by
  unfold installStepTrace
  split_ifs with h1 h2 <;> simp_all

theorem mem_bodyTrace (env : BuildEnv) (r : Bool) (a : BuildAction) :
    a ∈ bodyTrace env r ↔ a ∈ preTrace env ∨ a ∈ relocTrace r ∨ a ∈ buildStepTrace env ∨
      a ∈ vendorRecheckTrace env ∨ a ∈ installStepTrace env := by
  simp [bodyTrace, or_assoc]

theorem reloc_action_mem_bodyTrace (env : BuildEnv) (r : Bool) (a : BuildAction)
    (ha : a = BuildAction.moveToGopath ∨ a = BuildAction.writePathTransformer ∨
      a = BuildAction.setGopathAction) :
    a ∈ bodyTrace env r ↔ r = true := by
  rw [mem_bodyTrace]
  constructor
  · rintro (h | h | h | h | h)
    · rcases mem_preTrace env _ h with h | h <;> rcases ha with ha | ha | ha <;> simp_all
    · exact ((mem_relocTrace r _).mp h).1
    · rcases mem_buildStepTrace env _ h with h | h <;> rcases ha with ha | ha | ha <;> simp_all
    · have h2 := mem_vendorRecheckTrace env _ h
      rcases ha with ha | ha | ha <;> simp_all
    · rcases ((mem_installStepTrace env _).mp h).2 with ⟨_, h⟩ | ⟨_, h⟩ <;>
        rcases ha with ha | ha | ha <;> simp_all
  · intro hr
    exact Or.inr (Or.inl ((mem_relocTrace r _).mpr ⟨hr, ha⟩))

theorem restoreLayout_not_mem_bodyTrace (env : BuildEnv) (r : Bool) :
    BuildAction.restoreLayout ∉ bodyTrace env r := by
  intro h
  rcases (mem_bodyTrace env r _).mp h with h | h | h | h | h
  · rcases mem_preTrace env _ h with h | h <;> simp at h
  · rcases ((mem_relocTrace r _).mp h).2 with h | h | h <;> simp at h
  · rcases mem_buildStepTrace env _ h with h | h <;> simp at h
  · have h2 := mem_vendorRecheckTrace env _ h
    simp at h2
  · rcases ((mem_installStepTrace env _).mp h).2 with ⟨_, h⟩ | ⟨_, h⟩ <;> simp at h

theorem installDeps_not_mem_bodyTrace (env : BuildEnv) (r : Bool)
    (dm : DependencyInstallerMode) (hv : finalModMode env = ModMode.ModVendor) :
    BuildAction.installDeps dm ∉ bodyTrace env r := by
  intro h
  rcases (mem_bodyTrace env r _).mp h with h | h | h | h | h
  · rcases mem_preTrace env _ h with h | h <;> simp at h
  · rcases ((mem_relocTrace r _).mp h).2 with h | h | h <;> simp at h
  · rcases mem_buildStepTrace env _ h with h | h <;> simp at h
  · have h2 := mem_vendorRecheckTrace env _ h
    simp at h2
  · rcases ((mem_installStepTrace env _).mp h).2 with ⟨_, h⟩ | ⟨hne, _⟩
    · simp_all
    · exact hne hv

theorem skipInstallNotice_mem_bodyTrace (env : BuildEnv) (r : Bool)
    (hv : finalModMode env = ModMode.ModVendor) (hs : shouldInstallDepsOf env = true) :
    BuildAction.skipInstallNotice ∈ bodyTrace env r :=
  (mem_bodyTrace env r _).mpr (Or.inr (Or.inr (Or.inr (Or.inr
    ((mem_installStepTrace env _).mpr ⟨hs, Or.inl ⟨hv, rfl⟩⟩)))))

theorem reloc_action_mem_trace (env : BuildEnv) (a : BuildAction)
    (ha : a = BuildAction.moveToGopath ∨ a = BuildAction.writePathTransformer ∨
      a = BuildAction.setGopathAction) :
    a ∈ (installDependenciesAndBuild env).trace ↔
      ((env.lgtmSrc ≠ "" ∨ env.needGopathOverride ≠ "") ∧
       getNeedGopath (depModeOf env) env.importpath env.needGopathOverride = some true) := by
  rcases hng : getNeedGopath (depModeOf env) env.importpath env.needGopathOverride with _ | ng
  · simp only [installDependenciesAndBuild, hng]
    constructor
    · intro h
      rcases mem_preTrace env _ h with h | h <;> rcases ha with ha | ha | ha <;> simp_all
    · rintro ⟨-, h⟩
      simp at h
  · have hstep : ∀ (x : List BuildAction), (a ∉ x) → ∀ r : Bool,
        (a ∈ bodyTrace env r ++ x ↔ r = true) := by
      intro x hx r
      rw [List.mem_append]
      constructor
      · rintro (h | h)
        · exact (reloc_action_mem_bodyTrace env r a ha).mp h
        · exact absurd h hx
      · intro hr
        exact Or.inl ((reloc_action_mem_bodyTrace env r a ha).mpr hr)
    simp only [installDependenciesAndBuild, hng]
    cases he : env.extractionOk
    · simp only [he, Bool.false_eq_true, if_false]
      rw [hstep _ (by rcases ha with ha | ha | ha <;> simp [ha]) _]
      simp [Bool.and_eq_true, Bool.or_eq_true]
    · simp only [he, if_true]
      rw [List.append_assoc]
      rw [hstep _ (by rcases ha with ha | ha | ha <;> split_ifs <;> simp [ha]) _]
      simp [Bool.and_eq_true, Bool.or_eq_true]

/-! ## Claims about the build pipeline -/

/-- C10: In build mode, relocation, path-transformer and GOPATH actions
occur iff the computed need-for-relocation boolean is true AND at least
one of `LGTM_SRC` / `LGTM_INDEX_NEED_GOPATH` is non-empty; with both
empty none of them occurs even when need-for-relocation is true. -/
theorem relocation_only_with_lgtm_signal (env : BuildEnv) :
    (BuildAction.moveToGopath ∈ (installDependenciesAndBuild env).trace ∨
     BuildAction.writePathTransformer ∈ (installDependenciesAndBuild env).trace ∨
     BuildAction.setGopathAction ∈ (installDependenciesAndBuild env).trace) ↔
    ((env.lgtmSrc ≠ "" ∨ env.needGopathOverride ≠ "") ∧
     getNeedGopath (depModeOf env) env.importpath env.needGopathOverride = some true) := by
  rw [reloc_action_mem_trace env _ (Or.inl rfl),
    reloc_action_mem_trace env _ (Or.inr (Or.inl rfl)),
    reloc_action_mem_trace env _ (Or.inr (Or.inr rfl))]
  tauto

/-- C3, counterexample: a run that relocates and then fails fatally in
extraction — the plan exists (`moveToGopath` is in the trace), the run
has ended, and `restoreRepoLayout` never ran, because `log.Fatalf` is
`os.Exit` and deferred functions are skipped. -/
theorem relocation_not_restored_on_fatal_extraction :
    BuildAction.moveToGopath ∈ (installDependenciesAndBuild envExtractionFails).trace ∧
    (installDependenciesAndBuild envExtractionFails).fatal = true ∧
    (installDependenciesAndBuild envExtractionFails).trace.count BuildAction.restoreLayout = 0 := by
  decide

/-- C3, amended: once the relocation plan exists, the undo runs exactly
once before the run ends on every path on which the run does not
terminate through a fatal exit; on fatal paths (`log.Fatalf` after any
later phase) the deferred undo does not run at all. -/
theorem restoreLayout_exactly_once_unless_fatal (env : BuildEnv) :
    ((installDependenciesAndBuild env).fatal = false →
      (installDependenciesAndBuild env).trace.count BuildAction.restoreLayout =
        (if BuildAction.moveToGopath ∈ (installDependenciesAndBuild env).trace then 1 else 0)) ∧
    ((installDependenciesAndBuild env).fatal = true →
      (installDependenciesAndBuild env).trace.count BuildAction.restoreLayout = 0) := by
  rcases hng : getNeedGopath (depModeOf env) env.importpath env.needGopathOverride with _ | ng
  · simp only [installDependenciesAndBuild, hng]
    refine ⟨fun hf => by simp at hf, fun _ => ?_⟩
    rw [List.count_eq_zero]
    intro h
    rcases mem_preTrace env _ h with h | h <;> simp at h
  · have main : ∀ r : Bool,
        (bodyTrace env r ++ [BuildAction.extractRun (finalModMode env)] ++
          (if r then [BuildAction.removePathTransformer, BuildAction.restoreLayout]
           else [])).count BuildAction.restoreLayout =
        (if BuildAction.moveToGopath ∈
            (bodyTrace env r ++ [BuildAction.extractRun (finalModMode env)] ++
              (if r then [BuildAction.removePathTransformer, BuildAction.restoreLayout]
               else [])) then 1 else 0) := by
      intro r
      have hbody0 : (bodyTrace env r).count BuildAction.restoreLayout = 0 :=
        List.count_eq_zero.mpr (restoreLayout_not_mem_bodyTrace env r)
      cases r
      · have hm : BuildAction.moveToGopath ∉ bodyTrace env false := fun h =>
          absurd ((reloc_action_mem_bodyTrace env false _ (Or.inl rfl)).mp h) (by simp)
        simp [List.count_append, hbody0, hm]
      · have hm : BuildAction.moveToGopath ∈ bodyTrace env true :=
          (reloc_action_mem_bodyTrace env true _ (Or.inl rfl)).mpr rfl
        simp [List.count_append, hbody0, hm]
    simp only [installDependenciesAndBuild, hng]
    cases he : env.extractionOk
    · simp only [he, Bool.false_eq_true, if_false]
      refine ⟨fun hf => by simp at hf, fun _ => ?_⟩
      rw [List.count_eq_zero, List.mem_append]
      rintro (h | h)
      · exact restoreLayout_not_mem_bodyTrace env _ h
      · simp at h
    · simp only [he, if_true]
      exact ⟨fun _ => main _, fun hf => by simp at hf⟩

/-- C7: `installDependencies` is never invoked while the module mode in
effect after the vendor recheck is `ModVendor`; when installation was
decided but the mode is `ModVendor`, the skip notice is logged instead
(provided the run reached that point, i.e. `getNeedGopath` did not
fatal). -/
theorem installDependencies_never_in_vendored_mode (env : BuildEnv) :
    (∀ dm, finalModMode env = ModMode.ModVendor →
      BuildAction.installDeps dm ∉ (installDependenciesAndBuild env).trace) ∧
    (finalModMode env = ModMode.ModVendor → shouldInstallDepsOf env = true →
      (getNeedGopath (depModeOf env) env.importpath env.needGopathOverride).isSome = true →
      BuildAction.skipInstallNotice ∈ (installDependenciesAndBuild env).trace) := by
  constructor
  · intro dm hv hmem
    rcases hng : getNeedGopath (depModeOf env) env.importpath env.needGopathOverride with _ | ng
    · simp only [installDependenciesAndBuild, hng] at hmem
      rcases mem_preTrace env _ hmem with h | h <;> simp at h
    · simp only [installDependenciesAndBuild, hng] at hmem
      cases he : env.extractionOk
      · simp only [he, Bool.false_eq_true, if_false] at hmem
        rw [List.mem_append] at hmem
        rcases hmem with h | h
        · exact installDeps_not_mem_bodyTrace env _ dm hv h
        · simp at h
      · simp only [he, if_true] at hmem
        rw [List.append_assoc, List.mem_append] at hmem
        rcases hmem with h | h
        · exact installDeps_not_mem_bodyTrace env _ dm hv h
        · rw [List.mem_append] at h
          rcases h with h | h
          · simp at h
          · split_ifs at h <;> simp_all
  · intro hv hs hng2
    obtain ⟨ng, hng⟩ := Option.isSome_iff_exists.mp hng2
    simp only [installDependenciesAndBuild, hng]
    cases he : env.extractionOk
    · simp only [he, Bool.false_eq_true, if_false]
      exact List.mem_append.mpr (Or.inl (skipInstallNotice_mem_bodyTrace env _ hv hs))
    · simp only [he, if_true]
      exact List.mem_append.mpr (Or.inl (List.mem_append.mpr (Or.inl
        (skipInstallNotice_mem_bodyTrace env _ hv hs))))

/-- Witness for C7: a vendored module project whose default build fails —
the skip notice appears in the trace, `installDependencies` does not. -/
theorem installDependencies_never_in_vendored_mode_witness :
    BuildAction.skipInstallNotice ∈ (installDependenciesAndBuild envVendoredInstall).trace ∧
    BuildAction.installDeps DependencyInstallerMode.GoGetWithModules ∉
      (installDependenciesAndBuild envVendoredInstall).trace :=
  ⟨(installDependencies_never_in_vendored_mode envVendoredInstall).2
      (by decide) (by decide) (by decide),
   (installDependencies_never_in_vendored_mode envVendoredInstall).1 _ (by decide)⟩

/-- C5 (code bug evidence): with `go.mod` declaring `go 1.20` and the
environment also at Go 1.20 — versions *equal*, so the declared version
is not strictly newer — the early diagnostic is still emitted, because
the code tests `semver.Compare("v"+goModVersion, getEnvGoSemVer()) >= 0`
rather than `> 0`. -/
theorem emitNewerGoVersionNeeded_on_equal_versions :
    GoVer.cmp ⟨1, 20, none⟩ ⟨1, 20, none⟩ = Ordering.eq ∧
    goDirectiveOf envEqualVersions = some ⟨1, 20, none⟩ ∧
    envEqualVersions.goEnvVer = ⟨1, 20, none⟩ ∧
    newerGoVersionNeededCheck (goDirectiveOf envEqualVersions) envEqualVersions.goEnvVer = true ∧
    BuildAction.emitNewerGoVersionNeeded ∈
      (installDependenciesAndBuild envEqualVersions).trace := by
  decide

/-- Witness for amended C3: a fully successful relocating run — the undo
runs exactly once. -/
theorem restoreLayout_exactly_once_unless_fatal_witness :
    (installDependenciesAndBuild envRelocateOk).trace.count BuildAction.restoreLayout = 1 := by
  have h := (restoreLayout_exactly_once_unless_fatal envRelocateOk).1 (by decide)
  exact h.trans (by decide)
